import Mathlib

/-!
Verification of `vyper/ast/annotation.py`: a shallow embedding of the three
AST decoration passes (`AnnotatingVisitor`, `RewriteUnarySubVisitor`,
`AddSourceOffsetVisitor`) and the entry point `annotate_python_ast`,
together with theorems settling the specified properties.
-/

namespace VyperAst

/-- A lexical token as provided by the external tokenizer-association
service (the `asttokens` package): start/end line-column positions and
start/end byte offsets. -/
structure Token where
  startLine : Int
  startCol : Int
  endLine : Int
  endCol : Int
  startpos : Nat
  endpos : Nat
deriving DecidableEq, Repr

/-- The mutable attributes carried by a python AST node that this module
reads or writes.  `none` models the attribute being absent (for the
position fields it also models Python `None`, which is what the code
stores there on an association miss). -/
structure Attrs where
  lineno : Option Int := none
  col_offset : Option Int := none
  end_lineno : Option Int := none
  end_col_offset : Option Int := none
  node_id : Option Nat := none
  source_code : Option String := none
  ast_type : Option String := none
  class_type : Option String := none
  src : Option String := none
  first_token : Option Token := none
  last_token : Option Token := none
deriving DecidableEq, Repr

/-- Python runtime values that can sit in a `Constant` node.  Rationals
stand in for floats: the only arithmetic performed on them here is
negation, which is exact.  `vcomplex` / `vellipsis` are constant values
the classifier does not support. -/
inductive Value
  | vnone
  | vbool (b : Bool)
  | vint (n : Int)
  | vfloat (q : Rat)
  | vstr (s : String)
  | vbytes (bs : List Nat)
  | vcomplex (re im : Rat)
  | vellipsis
deriving DecidableEq, Repr

/-- The unary operator kinds of the python AST. -/
inductive UOpKind
  | usub
  | uadd
  | unot
  | uinvert
deriving DecidableEq, Repr

/-- `node.__class__.__name__` for a unary operator node. -/
def UOpKind.className : UOpKind → String
  | .usub => "USub"
  | .uadd => "UAdd"
  | .unot => "Not"
  | .uinvert => "Invert"

/-- A python AST node.  `module`, `classdef`, `unaryop`, `uop` and
`constant` are the structural classes the visitors dispatch on; every
other node class is represented uniformly by `other` with its class name
and its child nodes in field order.  Note that in the python AST the
operator of a `UnaryOp` is itself a node (and is therefore visited and
numbered like any other node). -/
inductive Node
  | module (a : Attrs) (body : List Node)
  | classdef (a : Attrs) (name : String) (body : List Node)
  | unaryop (a : Attrs) (op : Node) (operand : Node)
  | uop (a : Attrs) (k : UOpKind)
  | constant (a : Attrs) (value : Value)
  | other (a : Attrs) (kind : String) (children : List Node)

/-- The errors that can escape this module: `SyntaxException(msg, node)`
raised by `visit_Constant` (it carries the offending node), and the
`AttributeError` that `AddSourceOffsetVisitor.generic_visit` hits when a
node has a `last_token` attribute but no `first_token` attribute. -/
inductive AnnErr
  | syntaxException (node : Node)
  | attributeError

/-- The attributes of a node. -/
def Node.attrs : Node → Attrs
  | .module a _ => a
  | .classdef a _ _ => a
  | .unaryop a _ _ => a
  | .uop a _ => a
  | .constant a _ => a
  | .other a _ _ => a

/-- `node.__class__.__name__`. -/
def Node.className : Node → String
  | .module _ _ => "Module"
  | .classdef _ _ _ => "ClassDef"
  | .unaryop _ _ _ => "UnaryOp"
  | .uop _ k => k.className
  | .constant _ _ => "Constant"
  | .other _ kind _ => kind

mutual

/-- Total number of nodes of a tree. -/
def Node.size : Node → Nat
  | .module _ body => 1 + Node.sizeList body
  | .classdef _ _ body => 1 + Node.sizeList body
  | .unaryop _ op operand => 1 + op.size + operand.size
  | .uop _ _ => 1
  | .constant _ _ => 1
  | .other _ _ children => 1 + Node.sizeList children

/-- Total number of nodes of a list of trees. -/
def Node.sizeList : List Node → Nat
  | [] => 0
  | n :: rest => n.size + Node.sizeList rest

end

mutual

/-- All nodes of a tree, in pre-order (a node before its children,
children in field/source order). -/
def Node.allNodes : Node → List Node
  | .module a body => .module a body :: Node.allNodesList body
  | .classdef a name body => .classdef a name body :: Node.allNodesList body
  | .unaryop a op operand => .unaryop a op operand :: (op.allNodes ++ operand.allNodes)
  | .uop a k => [.uop a k]
  | .constant a v => [.constant a v]
  | .other a kind children => .other a kind children :: Node.allNodesList children

/-- All nodes of a list of trees, in pre-order. -/
def Node.allNodesList : List Node → List Node
  | [] => []
  | n :: rest => n.allNodes ++ Node.allNodesList rest

end

/-- The `node_id` values of a tree in pre-order. -/
def Node.preorderIds (t : Node) : List (Option Nat) :=
  t.allNodes.map fun n => n.attrs.node_id

/-- `value is None`. -/
def Value.isNone' : Value → Bool
  | .vnone => true
  | _ => false

/-- `isinstance(value, bool)`. -/
def Value.isBool : Value → Bool
  | .vbool _ => true
  | _ => false

/-- `isinstance(value, int)`.  In Python, `bool` is a subclass of `int`,
so booleans test true here. -/
def Value.isinstInt : Value → Bool
  | .vint _ => true
  | .vbool _ => true
  | _ => false

/-- `isinstance(value, float)`. -/
def Value.isinstFloat : Value → Bool
  | .vfloat _ => true
  | _ => false

/-- `isinstance(value, str)`. -/
def Value.isinstStr : Value → Bool
  | .vstr _ => true
  | _ => false

/-- `isinstance(value, bytes)`. -/
def Value.isinstBytes : Value → Bool
  | .vbytes _ => true
  | _ => false

/-- `isinstance(value, complex)`. -/
def Value.isinstComplex : Value → Bool
  | .vcomplex _ _ => true
  | _ => false

/-- The classification chain of `AnnotatingVisitor.visit_Constant`,
with the branch conditions exactly as in the source:
`value is None or isinstance(value, bool)` → `"NameConstant"`, else
`isinstance(value, (int, float))` → `"Num"`, else
`isinstance(value, str)` → `"Str"`, else
`isinstance(value, bytes)` → `"Bytes"`, else no classification
(a `SyntaxException` is raised). -/
def constAstType (v : Value) : Option String :=
  if v.isNone' || v.isBool then some "NameConstant"
  else if v.isinstInt || v.isinstFloat then some "Num"
  else if v.isinstStr then some "Str"
  else if v.isinstBytes then some "Bytes"
  else none

/-- `isinstance(node, python_ast.Num)` on a constant's value.  Per
CPython's `ast._const_types` / `_const_types_not`, `Num` matches a
`Constant` whose value is an `int`, `float` or `complex` but not a
`bool`. -/
def Value.isinstNum (v : Value) : Bool :=
  (v.isinstInt || v.isinstFloat || v.isinstComplex) && !v.isBool

/-- `0 - n` on a numeric constant value (`Constant.n` is an alias of
`Constant.value`).  Only invoked on values passing `isinstNum`. -/
def Value.negNum : Value → Value
  | .vint n => .vint (0 - n)
  | .vfloat q => .vfloat (0 - q)
  | .vcomplex re im => .vcomplex (0 - re) (0 - im)
  | v => v

/-- `isinstance(node.operand, python_ast.Num)`. -/
def Node.isNumConst : Node → Bool
  | .constant _ v => v.isinstNum
  | _ => false

/-- `isinstance(node.op, python_ast.USub)`. -/
def Node.isUSubNode : Node → Bool
  | .uop _ .usub => true
  | _ => false

/-- `isinstance(node, python_ast.UnaryOp)`. -/
def Node.isUnaryOp : Node → Bool
  | .unaryop _ _ _ => true
  | _ => false

/-- `self._class_types.get(node.name)`. -/
def lookupClassType (class_types : List (String × String)) (name : String) :
    Option String :=
  (class_types.find? fun p => p.1 == name).map fun p => p.2

/-- The attribute mutations of `AnnotatingVisitor.generic_visit`:
`node.source_code = self._source_code; node.node_id = self.counter;
node.ast_type = node.__class__.__name__` (the counter increment is the
`+ 1` threaded by the caller). -/
def annotateAttrs (source_code : String) (className : String) (counter : Nat)
    (a : Attrs) : Attrs :=
  {a with source_code := some source_code,
          node_id := some counter,
          ast_type := some className}

mutual

/-- `AnnotatingVisitor.visit`: dispatches to `visit_ClassDef` /
`visit_Constant` when the node is of that class, otherwise to
`generic_visit`, which decorates the node (`source_code`, `node_id`,
`ast_type`), increments the counter, and then visits the children
(`NodeTransformer.generic_visit`).  `visit_ClassDef` additionally sets
`class_type` from the lookup table; `visit_Constant` overwrites
`ast_type` with the classified constant sub-kind or raises a
`SyntaxException` carrying the node. -/
def AnnotatingVisitor.visit (source_code : String)
    (class_types : List (String × String)) :
    Node → Nat → Except AnnErr (Node × Nat)
  | .module a body, counter =>
      match AnnotatingVisitor.visitList source_code class_types body (counter + 1) with
      | .ok (body', c') =>
          .ok (.module (annotateAttrs source_code "Module" counter a) body', c')
      | .error e => .error e
  | .classdef a name body, counter =>
      match AnnotatingVisitor.visitList source_code class_types body (counter + 1) with
      | .ok (body', c') =>
          .ok (.classdef {annotateAttrs source_code "ClassDef" counter a with
                            class_type := lookupClassType class_types name}
                 name body', c')
      | .error e => .error e
  | .unaryop a op operand, counter =>
      match AnnotatingVisitor.visit source_code class_types op (counter + 1) with
      | .ok (op', c1) =>
          match AnnotatingVisitor.visit source_code class_types operand c1 with
          | .ok (operand', c2) =>
              .ok (.unaryop (annotateAttrs source_code "UnaryOp" counter a) op' operand', c2)
          | .error e => .error e
      | .error e => .error e
  | .uop a k, counter =>
      .ok (.uop (annotateAttrs source_code k.className counter a) k, counter + 1)
  | .constant a v, counter =>
      match constAstType v with
      | some tag =>
          .ok (.constant {annotateAttrs source_code "Constant" counter a with
                            ast_type := some tag} v, counter + 1)
      | none =>
          .error (.syntaxException
            (.constant (annotateAttrs source_code "Constant" counter a) v))
  | .other a kind children, counter =>
      match AnnotatingVisitor.visitList source_code class_types children (counter + 1) with
      | .ok (children', c') =>
          .ok (.other (annotateAttrs source_code kind counter a) kind children', c')
      | .error e => .error e

/-- `NodeTransformer.generic_visit`'s traversal of a list of child
nodes: each child is visited in order, threading the counter. -/
def AnnotatingVisitor.visitList (source_code : String)
    (class_types : List (String × String)) :
    List Node → Nat → Except AnnErr (List Node × Nat)
  | [], counter => .ok ([], counter)
  | n :: rest, counter =>
      match AnnotatingVisitor.visit source_code class_types n counter with
      | .ok (n', c1) =>
          match AnnotatingVisitor.visitList source_code class_types rest c1 with
          | .ok (rest', c2) => .ok (n' :: rest', c2)
          | .error e => .error e
      | .error e => .error e

end

/-- The in-place mutation performed by the fold branch of
`RewriteUnarySubVisitor.visit_UnaryOp`:
`node.operand.n = 0 - node.operand.n;
node.operand.col_offset = node.col_offset`.
(`Constant.n` aliases `Constant.value`.)  Only reached when the operand
tested as a `Num` instance, hence is a constant; the catch-all branch is
unreachable on that path. -/
def foldNegate (outer_col : Option Int) : Node → Node
  | .constant ca v => .constant {ca with col_offset := outer_col} v.negNum
  | n => n

mutual

/-- `RewriteUnarySubVisitor.visit`: `visit_UnaryOp` for unary-operation
nodes, `NodeTransformer.generic_visit` (visit the children, keep the
node) for everything else.  `visit_UnaryOp` first runs `generic_visit`
(so the `op` and `operand` fields hold their visited versions), then, if
`isinstance(node.op, USub) and isinstance(node.operand, Num)`, negates
the operand's value in place, overwrites its `col_offset` with the unary
node's, and returns the operand in place of the unary node; otherwise it
returns the unary node itself. -/
def RewriteUnarySubVisitor.visit : Node → Node
  | .module a body => .module a (RewriteUnarySubVisitor.visitList body)
  | .classdef a name body => .classdef a name (RewriteUnarySubVisitor.visitList body)
  | .unaryop a op operand =>
      if (RewriteUnarySubVisitor.visit op).isUSubNode
          && (RewriteUnarySubVisitor.visit operand).isNumConst then
        foldNegate a.col_offset (RewriteUnarySubVisitor.visit operand)
      else
        .unaryop a (RewriteUnarySubVisitor.visit op) (RewriteUnarySubVisitor.visit operand)
  | .uop a k => .uop a k
  | .constant a v => .constant a v
  | .other a kind children => .other a kind (RewriteUnarySubVisitor.visitList children)

/-- Child lists under `NodeTransformer.generic_visit`. -/
def RewriteUnarySubVisitor.visitList : List Node → List Node
  | [] => []
  | n :: rest => RewriteUnarySubVisitor.visit n :: RewriteUnarySubVisitor.visitList rest

end

/-- The tree as left in place by `RewriteUnarySubVisitor().visit(parsed_ast)`.
`annotate_python_ast` discards the `visit` return value, so when the root
itself is a foldable unary negation its replacement is lost: the root
object stays a `UnaryOp`, while the in-place mutations of its (visited)
operand — negated value, overwritten `col_offset` — persist.  For every
other root class the in-place result coincides with the returned tree. -/
def RewriteUnarySubVisitor.visitTree : Node → Node
  | .unaryop a op operand =>
      if (RewriteUnarySubVisitor.visit op).isUSubNode
          && (RewriteUnarySubVisitor.visit operand).isNumConst then
        .unaryop a (RewriteUnarySubVisitor.visit op)
          (foldNegate a.col_offset (RewriteUnarySubVisitor.visit operand))
      else
        .unaryop a (RewriteUnarySubVisitor.visit op) (RewriteUnarySubVisitor.visit operand)
  | t => RewriteUnarySubVisitor.visit t

/-- Set the token association computed by the external service on one
node's attributes. -/
def tokAttrs (p : Option Token × Option Token) (a : Attrs) : Attrs :=
  {a with first_token := p.1, last_token := p.2}

mutual

/-- Modelled from the spec: `asttokens.ASTTokens(source_code, tree=...)`
is the external tokenizer-association service (not part of this
repository); it decorates each node of the tree with an optional
`first_token` / `last_token` pair.  The assignment `tok` is kept
abstract: the theorems below hold for every assignment. -/
def applyTokenAssoc (tok : Node → Option Token × Option Token) : Node → Node
  | .module a body =>
      .module (tokAttrs (tok (.module a body)) a) (applyTokenAssocList tok body)
  | .classdef a name body =>
      .classdef (tokAttrs (tok (.classdef a name body)) a) name
        (applyTokenAssocList tok body)
  | .unaryop a op operand =>
      .unaryop (tokAttrs (tok (.unaryop a op operand)) a)
        (applyTokenAssoc tok op) (applyTokenAssoc tok operand)
  | .uop a k => .uop (tokAttrs (tok (.uop a k)) a) k
  | .constant a v => .constant (tokAttrs (tok (.constant a v)) a) v
  | .other a kind children =>
      .other (tokAttrs (tok (.other a kind children)) a) kind
        (applyTokenAssocList tok children)

/-- Token association over a list of trees. -/
def applyTokenAssocList (tok : Node → Option Token × Option Token) :
    List Node → List Node
  | [] => []
  | n :: rest => applyTokenAssoc tok n :: applyTokenAssocList tok rest

end

/-- The attribute mutations of `AddSourceOffsetVisitor.generic_visit` on
one node: `start`/`end` come from `first_token.start` / `last_token.end`
when the attribute exists, else `(None, None)`; the four position fields
are always overwritten; when the node has a `last_token` attribute the
`src` string `f"{start_pos}:{end_pos-start_pos}:{source_id}"` is stored —
reading `node.first_token.startpos`, which raises an `AttributeError`
when `last_token` is present but `first_token` is not. -/
def AddSourceOffsetVisitor.spanAttrs (source_id : Int) (a : Attrs) :
    Except AnnErr Attrs :=
  let start : Option Int × Option Int :=
    match a.first_token with
    | some t => (some t.startLine, some t.startCol)
    | none => (none, none)
  let stop : Option Int × Option Int :=
    match a.last_token with
    | some t => (some t.endLine, some t.endCol)
    | none => (none, none)
  let a1 := {a with lineno := start.1, col_offset := start.2,
                    end_lineno := stop.1, end_col_offset := stop.2}
  match a.last_token with
  | none => .ok a1
  | some lt =>
      match a.first_token with
      | none => .error .attributeError
      | some ft =>
          .ok {a1 with src := some (toString ft.startpos ++ ":" ++
                 toString ((lt.endpos : Int) - (ft.startpos : Int)) ++ ":" ++
                 toString source_id)}

mutual

/-- `AddSourceOffsetVisitor.visit`: `generic_visit` on every node —
mutate the node's position/`src` attributes, then visit the children. -/
def AddSourceOffsetVisitor.visit (source_id : Int) : Node → Except AnnErr Node
  | .module a body =>
      match AddSourceOffsetVisitor.spanAttrs source_id a with
      | .ok a' =>
          match AddSourceOffsetVisitor.visitList source_id body with
          | .ok body' => .ok (.module a' body')
          | .error e => .error e
      | .error e => .error e
  | .classdef a name body =>
      match AddSourceOffsetVisitor.spanAttrs source_id a with
      | .ok a' =>
          match AddSourceOffsetVisitor.visitList source_id body with
          | .ok body' => .ok (.classdef a' name body')
          | .error e => .error e
      | .error e => .error e
  | .unaryop a op operand =>
      match AddSourceOffsetVisitor.spanAttrs source_id a with
      | .ok a' =>
          match AddSourceOffsetVisitor.visit source_id op with
          | .ok op' =>
              match AddSourceOffsetVisitor.visit source_id operand with
              | .ok operand' => .ok (.unaryop a' op' operand')
              | .error e => .error e
          | .error e => .error e
      | .error e => .error e
  | .uop a k =>
      match AddSourceOffsetVisitor.spanAttrs source_id a with
      | .ok a' => .ok (.uop a' k)
      | .error e => .error e
  | .constant a v =>
      match AddSourceOffsetVisitor.spanAttrs source_id a with
      | .ok a' => .ok (.constant a' v)
      | .error e => .error e
  | .other a kind children =>
      match AddSourceOffsetVisitor.spanAttrs source_id a with
      | .ok a' =>
          match AddSourceOffsetVisitor.visitList source_id children with
          | .ok children' => .ok (.other a' kind children')
          | .error e => .error e
      | .error e => .error e

/-- Child lists under `AddSourceOffsetVisitor.generic_visit`. -/
def AddSourceOffsetVisitor.visitList (source_id : Int) :
    List Node → Except AnnErr (List Node)
  | [] => .ok []
  | n :: rest =>
      match AddSourceOffsetVisitor.visit source_id n with
      | .ok n' =>
          match AddSourceOffsetVisitor.visitList source_id rest with
          | .ok rest' => .ok (n' :: rest')
          | .error e => .error e
      | .error e => .error e

end

/-- `annotate_python_ast(parsed_ast, source_code, class_types, source_id)`:
runs `AnnotatingVisitor`, then `RewriteUnarySubVisitor`, then the external
token association, then `AddSourceOffsetVisitor`, strictly in that order,
on the same tree.  The result is the mutated tree (or the uncaught
exception).  `tok` is the external token-association service, modelled
from the spec (see `applyTokenAssoc`). -/
def annotate_python_ast (tok : Node → Option Token × Option Token)
    (parsed_ast : Node) (source_code : String)
    (class_types : List (String × String)) (source_id : Int) :
    Except AnnErr Node :=
  match AnnotatingVisitor.visit source_code class_types parsed_ast 0 with
  | .error e => .error e
  | .ok (t1, _) =>
      AddSourceOffsetVisitor.visit source_id
        (applyTokenAssoc tok (RewriteUnarySubVisitor.visitTree t1))

mutual

/-- A tree contains a constant node whose value the classification chain
of `visit_Constant` does not support. -/
def hasUnsupportedConst : Node → Bool
  | .module _ body => hasUnsupportedConstList body
  | .classdef _ _ body => hasUnsupportedConstList body
  | .unaryop _ op operand => hasUnsupportedConst op || hasUnsupportedConst operand
  | .uop _ _ => false
  | .constant _ v => (constAstType v).isNone
  | .other _ _ children => hasUnsupportedConstList children

/-- `hasUnsupportedConst` over a list of trees. -/
def hasUnsupportedConstList : List Node → Bool
  | [] => false
  | n :: rest => hasUnsupportedConst n || hasUnsupportedConstList rest

end

mutual

/-- Every node of the tree that carries a `last_token` association also
carries a `first_token` association (as the external service guarantees:
it sets both together). -/
def tokensOk : Node → Bool
  | .module a body => (!a.last_token.isSome || a.first_token.isSome) && tokensOkList body
  | .classdef a _ body => (!a.last_token.isSome || a.first_token.isSome) && tokensOkList body
  | .unaryop a op operand =>
      (!a.last_token.isSome || a.first_token.isSome) && tokensOk op && tokensOk operand
  | .uop a _ => !a.last_token.isSome || a.first_token.isSome
  | .constant a _ => !a.last_token.isSome || a.first_token.isSome
  | .other a _ children =>
      (!a.last_token.isSome || a.first_token.isSome) && tokensOkList children

/-- `tokensOk` over a list of trees. -/
def tokensOkList : List Node → Bool
  | [] => true
  | n :: rest => tokensOk n && tokensOkList rest

end

/-- A token-association assignment under which no node is associated with
any tokens (e.g. a source with no tokens for these nodes). -/
def tokNone : Node → Option Token × Option Token := fun _ => (none, none)

/-- A sample token covering source bytes 10 to 15 on line 1, columns 0-5. -/
def tk1015 : Token := ⟨1, 0, 1, 5, 10, 15⟩

/-- Sample tree: a module holding a boolean constant and a name node. -/
def exM : Node := .module {} [.constant {} (.vbool true), .other {} "Name" []]

/-- Sample tree: a module whose body is the negation of the literal 5. -/
def exNeg : Node := .module {} [.unaryop {} (.uop {} .usub) (.constant {} (.vint 5))]

/-- The result of running the full entry point on `exNeg` with no token
associations. -/
def exNegOut : Node := (annotate_python_ast tokNone exNeg "" [] 0).toOption.getD exNeg

/-- Sample tree: a double negation of the literal 5. -/
def exDblNeg : Node :=
  .unaryop {col_offset := some 0} (.uop {} .usub)
    (.unaryop {col_offset := some 1} (.uop {} .usub)
      (.constant {col_offset := some 2, node_id := some 9} (.vint 5)))

/-- Sample tree: a constant holding a complex value, which the
classification chain does not support. -/
def exBad : Node := .module {} [.constant {} (.vcomplex 1 2)]

/-- Two successive calls to the entry point on independent trees.  In the
source the id counter is instance state of `AnnotatingVisitor`, and
`annotate_python_ast` constructs a fresh instance (counter 0) on every
call; no module-level mutable state exists, so a second call is a fresh
function application. -/
def annotateTwice (tok : Node → Option Token × Option Token) (t₁ t₂ : Node)
    (source_code : String) (class_types : List (String × String)) (source_id : Int) :
    Except AnnErr Node × Except AnnErr Node :=
  (annotate_python_ast tok t₁ source_code class_types source_id,
   annotate_python_ast tok t₂ source_code class_types source_id)

end VyperAst

namespace VyperAst

theorem annotateAttrs_node_id (s n : String) (c : Nat) (a : Attrs) :
    (annotateAttrs s n c a).node_id = some c := rfl

mutual

theorem visit_ids (source_code : String) (class_types : List (String × String))
    (t : Node) :
    ∀ c t' c', AnnotatingVisitor.visit source_code class_types t c = .ok (t', c') →
      c' = c + t.size ∧
      t'.allNodes.map (fun n => n.attrs.node_id) = (List.range' c t.size).map some := by
  cases t with
  | module a body =>
      intro c t' c' h
      rw [AnnotatingVisitor.visit] at h
      split at h
      · rename_i body' c2 heq
        obtain ⟨hsz, hids⟩ := visitList_ids source_code class_types body (c + 1) body' c2 heq
        cases h
        refine ⟨by simp [Node.size]; omega, ?_⟩
        simp only [Node.allNodes, Node.size, List.map_cons, hids]
        rw [show 1 + Node.sizeList body = Node.sizeList body + 1 by omega, List.range'_succ]
        simp [annotateAttrs, Node.attrs]
      · exact absurd h (by simp)
  | classdef a name body =>
      intro c t' c' h
      rw [AnnotatingVisitor.visit] at h
      split at h
      · rename_i body' c2 heq
        obtain ⟨hsz, hids⟩ := visitList_ids source_code class_types body (c + 1) body' c2 heq
        cases h
        refine ⟨by simp [Node.size]; omega, ?_⟩
        simp only [Node.allNodes, Node.size, List.map_cons, hids]
        rw [show 1 + Node.sizeList body = Node.sizeList body + 1 by omega, List.range'_succ]
        simp [annotateAttrs, Node.attrs]
      · exact absurd h (by simp)
  | unaryop a op operand =>
      intro c t' c' h
      rw [AnnotatingVisitor.visit] at h
      split at h
      · rename_i op' c1 heq1
        split at h
        · rename_i operand' c2 heq2
          obtain ⟨hsz1, hids1⟩ := visit_ids source_code class_types op (c + 1) op' c1 heq1
          obtain ⟨hsz2, hids2⟩ := visit_ids source_code class_types operand c1 operand' c2 heq2
          cases h
          refine ⟨by simp [Node.size]; omega, ?_⟩
          subst hsz1
          simp only [Node.allNodes, Node.size, List.map_cons, List.map_append, hids1, hids2]
          rw [← List.map_append, List.range'_append_1]
          rw [show (1 : Nat) + op.size + operand.size = (operand.size + op.size) + 1 from by omega,
              List.range'_succ]
          simp [annotateAttrs, Node.attrs]
        · exact absurd h (by simp)
      · exact absurd h (by simp)
  | uop a k =>
      intro c t' c' h
      rw [AnnotatingVisitor.visit] at h
      cases h
      refine ⟨by simp [Node.size], ?_⟩
      simp [Node.allNodes, Node.size, annotateAttrs, Node.attrs]
  | constant a v =>
      intro c t' c' h
      rw [AnnotatingVisitor.visit] at h
      split at h
      · rename_i tag heq
        cases h
        refine ⟨by simp [Node.size], ?_⟩
        simp [Node.allNodes, Node.size, annotateAttrs, Node.attrs]
      · exact absurd h (by simp)
  | other a kind children =>
      intro c t' c' h
      rw [AnnotatingVisitor.visit] at h
      split at h
      · rename_i children' c2 heq
        obtain ⟨hsz, hids⟩ := visitList_ids source_code class_types children (c + 1) children' c2 heq
        cases h
        refine ⟨by simp [Node.size]; omega, ?_⟩
        simp only [Node.allNodes, Node.size, List.map_cons, hids]
        rw [show 1 + Node.sizeList children = Node.sizeList children + 1 by omega, List.range'_succ]
        simp [annotateAttrs, Node.attrs]
      · exact absurd h (by simp)

theorem visitList_ids (source_code : String) (class_types : List (String × String))
    (l : List Node) :
    ∀ c l' c', AnnotatingVisitor.visitList source_code class_types l c = .ok (l', c') →
      c' = c + Node.sizeList l ∧
      (Node.allNodesList l').map (fun n => n.attrs.node_id) =
        (List.range' c (Node.sizeList l)).map some := by
  cases l with
  | nil =>
      intro c l' c' h
      rw [AnnotatingVisitor.visitList] at h
      cases h
      simp [Node.sizeList, Node.allNodesList]
  | cons n rest =>
      intro c l' c' h
      rw [AnnotatingVisitor.visitList] at h
      split at h
      · rename_i n' c1 heq1
        split at h
        · rename_i rest' c2 heq2
          obtain ⟨hsz1, hids1⟩ := visit_ids source_code class_types n c n' c1 heq1
          obtain ⟨hsz2, hids2⟩ := visitList_ids source_code class_types rest c1 rest' c2 heq2
          cases h
          refine ⟨by simp [Node.sizeList]; omega, ?_⟩
          subst hsz1
          simp only [Node.allNodesList, List.map_append, hids1, hids2]
          rw [← List.map_append, List.range'_append_1]
          rw [show Node.sizeList (n :: rest) = Node.sizeList rest + n.size from by
                rw [Node.sizeList]; omega]
        · exact absurd h (by simp)
      · exact absurd h (by simp)

end

end VyperAst

namespace VyperAst

mutual

theorem visit_constTypes (source_code : String) (class_types : List (String × String))
    (t : Node) :
    ∀ c t' c', AnnotatingVisitor.visit source_code class_types t c = .ok (t', c') →
      ∀ n ∈ t'.allNodes, ∀ a v, n = Node.constant a v → a.ast_type = constAstType v := by
  cases t with
  | module a body =>
      intro c t' c' h
      rw [AnnotatingVisitor.visit] at h
      split at h
      · rename_i body' c2 heq
        cases h
        intro n hn a' v hnv
        rcases List.mem_cons.mp hn with h1 | h1
        · subst h1; cases hnv
        · exact visitList_constTypes source_code class_types body (c + 1) body' _ heq n h1 a' v hnv
      · exact absurd h (by simp)
  | classdef a name body =>
      intro c t' c' h
      rw [AnnotatingVisitor.visit] at h
      split at h
      · rename_i body' c2 heq
        cases h
        intro n hn a' v hnv
        rcases List.mem_cons.mp hn with h1 | h1
        · subst h1; cases hnv
        · exact visitList_constTypes source_code class_types body (c + 1) body' _ heq n h1 a' v hnv
      · exact absurd h (by simp)
  | unaryop a op operand =>
      intro c t' c' h
      rw [AnnotatingVisitor.visit] at h
      split at h
      · rename_i op' c1 heq1
        split at h
        · rename_i operand' c2 heq2
          cases h
          intro n hn a' v hnv
          rcases List.mem_cons.mp hn with h1 | h1
          · subst h1; cases hnv
          · rcases List.mem_append.mp h1 with h2 | h2
            · exact visit_constTypes source_code class_types op (c + 1) op' _ heq1 n h2 a' v hnv
            · exact visit_constTypes source_code class_types operand c1 operand' _ heq2 n h2 a' v hnv
        · exact absurd h (by simp)
      · exact absurd h (by simp)
  | uop a k =>
      intro c t' c' h
      rw [AnnotatingVisitor.visit] at h
      cases h
      intro n hn a' v hnv
      rcases List.mem_singleton.mp hn with h1
      subst h1; cases hnv
  | constant a v =>
      intro c t' c' h
      rw [AnnotatingVisitor.visit] at h
      split at h
      · rename_i tag heq
        cases h
        intro n hn a' v' hnv
        rcases List.mem_singleton.mp hn with h1
        subst h1
        cases hnv
        simp [heq]
      · exact absurd h (by simp)
  | other a kind children =>
      intro c t' c' h
      rw [AnnotatingVisitor.visit] at h
      split at h
      · rename_i children' c2 heq
        cases h
        intro n hn a' v hnv
        rcases List.mem_cons.mp hn with h1 | h1
        · subst h1; cases hnv
        · exact visitList_constTypes source_code class_types children (c + 1) children' _ heq n h1 a' v hnv
      · exact absurd h (by simp)

theorem visitList_constTypes (source_code : String) (class_types : List (String × String))
    (l : List Node) :
    ∀ c l' c', AnnotatingVisitor.visitList source_code class_types l c = .ok (l', c') →
      ∀ n ∈ Node.allNodesList l', ∀ a v, n = Node.constant a v → a.ast_type = constAstType v := by
  cases l with
  | nil =>
      intro c l' c' h
      rw [AnnotatingVisitor.visitList] at h
      cases h
      intro n hn
      simp [Node.allNodesList] at hn
  | cons m rest =>
      intro c l' c' h
      rw [AnnotatingVisitor.visitList] at h
      split at h
      · rename_i m' c1 heq1
        split at h
        · rename_i rest' c2 heq2
          cases h
          intro n hn a v hnv
          rw [Node.allNodesList] at hn
          rcases List.mem_append.mp hn with h1 | h1
          · exact visit_constTypes source_code class_types m c m' _ heq1 n h1 a v hnv
          · exact visitList_constTypes source_code class_types rest c1 rest' _ heq2 n h1 a v hnv
        · exact absurd h (by simp)
      · exact absurd h (by simp)

end

theorem foldNegate_ids (col : Option Int) (n : Node) :
    ((foldNegate col n).allNodes.map fun m => m.attrs.node_id) =
      (n.allNodes.map fun m => m.attrs.node_id) := by
  cases n <;> simp [foldNegate, Node.allNodes, Node.attrs]

mutual

theorem rw_visit_sublist (t : Node) :
    List.Sublist
      ((RewriteUnarySubVisitor.visit t).allNodes.map fun n => n.attrs.node_id)
      (t.allNodes.map fun n => n.attrs.node_id) := by
  cases t with
  | module a body =>
      rw [RewriteUnarySubVisitor.visit]
      simp only [Node.allNodes, List.map_cons]
      exact List.Sublist.cons₂ _ (rw_visitList_sublist body)
  | classdef a name body =>
      rw [RewriteUnarySubVisitor.visit]
      simp only [Node.allNodes, List.map_cons]
      exact List.Sublist.cons₂ _ (rw_visitList_sublist body)
  | unaryop a op operand =>
      rw [RewriteUnarySubVisitor.visit]
      split
      · rename_i hcond
        rw [foldNegate_ids]
        refine List.Sublist.trans (rw_visit_sublist operand) ?_
        simp only [Node.allNodes, List.map_cons, List.map_append]
        exact List.Sublist.cons _ (List.sublist_append_right _ _)
      · simp only [Node.allNodes, List.map_cons, List.map_append]
        exact List.Sublist.cons₂ _
          (List.Sublist.append (rw_visit_sublist op) (rw_visit_sublist operand))
  | uop a k =>
      rw [RewriteUnarySubVisitor.visit]
  | constant a v =>
      rw [RewriteUnarySubVisitor.visit]
  | other a kind children =>
      rw [RewriteUnarySubVisitor.visit]
      simp only [Node.allNodes, List.map_cons]
      exact List.Sublist.cons₂ _ (rw_visitList_sublist children)

theorem rw_visitList_sublist (l : List Node) :
    List.Sublist
      ((Node.allNodesList (RewriteUnarySubVisitor.visitList l)).map fun n => n.attrs.node_id)
      ((Node.allNodesList l).map fun n => n.attrs.node_id) := by
  cases l with
  | nil => rw [RewriteUnarySubVisitor.visitList]
  | cons n rest =>
      rw [RewriteUnarySubVisitor.visitList]
      simp only [Node.allNodesList, List.map_append]
      exact List.Sublist.append (rw_visit_sublist n) (rw_visitList_sublist rest)

end

theorem rw_visitTree_sublist (t : Node) :
    List.Sublist
      ((RewriteUnarySubVisitor.visitTree t).allNodes.map fun n => n.attrs.node_id)
      (t.allNodes.map fun n => n.attrs.node_id) := by
  cases t with
  | unaryop a op operand =>
      rw [RewriteUnarySubVisitor.visitTree]
      split
      · rename_i hcond
        simp only [Node.allNodes, List.map_cons, List.map_append, foldNegate_ids]
        exact List.Sublist.cons₂ _
          (List.Sublist.append (rw_visit_sublist op) (rw_visit_sublist operand))
      · simp only [Node.allNodes, List.map_cons, List.map_append]
        exact List.Sublist.cons₂ _
          (List.Sublist.append (rw_visit_sublist op) (rw_visit_sublist operand))
  | module a body => exact rw_visit_sublist _
  | classdef a name body => exact rw_visit_sublist _
  | uop a k => exact rw_visit_sublist _
  | constant a v => exact rw_visit_sublist _
  | other a kind children => exact rw_visit_sublist _

end VyperAst

namespace VyperAst

mutual

theorem tokenAssoc_ids (tok : Node → Option Token × Option Token) (t : Node) :
    ((applyTokenAssoc tok t).allNodes.map fun n => n.attrs.node_id) =
      (t.allNodes.map fun n => n.attrs.node_id) := by
  cases t with
  | module a body =>
      rw [applyTokenAssoc]
      simp only [Node.allNodes, List.map_cons, tokenAssocList_ids tok body]
      simp [tokAttrs, Node.attrs]
  | classdef a name body =>
      rw [applyTokenAssoc]
      simp only [Node.allNodes, List.map_cons, tokenAssocList_ids tok body]
      simp [tokAttrs, Node.attrs]
  | unaryop a op operand =>
      rw [applyTokenAssoc]
      simp only [Node.allNodes, List.map_cons, List.map_append,
        tokenAssoc_ids tok op, tokenAssoc_ids tok operand]
      simp [tokAttrs, Node.attrs]
  | uop a k =>
      rw [applyTokenAssoc]
      simp [Node.allNodes, tokAttrs, Node.attrs]
  | constant a v =>
      rw [applyTokenAssoc]
      simp [Node.allNodes, tokAttrs, Node.attrs]
  | other a kind children =>
      rw [applyTokenAssoc]
      simp only [Node.allNodes, List.map_cons, tokenAssocList_ids tok children]
      simp [tokAttrs, Node.attrs]

theorem tokenAssocList_ids (tok : Node → Option Token × Option Token) (l : List Node) :
    ((Node.allNodesList (applyTokenAssocList tok l)).map fun n => n.attrs.node_id) =
      ((Node.allNodesList l).map fun n => n.attrs.node_id) := by
  cases l with
  | nil => rw [applyTokenAssocList]
  | cons n rest =>
      rw [applyTokenAssocList]
      simp only [Node.allNodesList, List.map_append,
        tokenAssoc_ids tok n, tokenAssocList_ids tok rest]

end

theorem spanAttrs_node_id (source_id : Int) (a a' : Attrs)
    (h : AddSourceOffsetVisitor.spanAttrs source_id a = .ok a') :
    a'.node_id = a.node_id := by
  simp only [AddSourceOffsetVisitor.spanAttrs] at h
  split at h
  · cases h; rfl
  · split at h
    · exact absurd h (by simp)
    · cases h; rfl

theorem spanAttrs_total (source_id : Int) (a : Attrs)
    (h : (!a.last_token.isSome || a.first_token.isSome) = true) :
    ∃ a', AddSourceOffsetVisitor.spanAttrs source_id a = .ok a' := by
  simp only [AddSourceOffsetVisitor.spanAttrs]
  cases hl : a.last_token with
  | none => exact ⟨_, rfl⟩
  | some lt =>
      rw [hl] at h
      simp only [Option.isSome_some, Bool.not_true, Bool.false_or] at h
      cases hf : a.first_token with
      | none => rw [hf] at h; simp at h
      | some ft => exact ⟨_, rfl⟩

mutual

theorem span_visit_ids (source_id : Int) (t : Node) :
    ∀ t', AddSourceOffsetVisitor.visit source_id t = .ok t' →
      (t'.allNodes.map fun n => n.attrs.node_id) =
        (t.allNodes.map fun n => n.attrs.node_id) := by
  cases t with
  | module a body =>
      intro t' h
      rw [AddSourceOffsetVisitor.visit] at h
      split at h
      · rename_i a' ha
        split at h
        · rename_i body' hb
          cases h
          simp only [Node.allNodes, List.map_cons, span_visitList_ids source_id body body' hb]
          simp [Node.attrs, spanAttrs_node_id source_id a a' ha]
        · exact absurd h (by simp)
      · exact absurd h (by simp)
  | classdef a name body =>
      intro t' h
      rw [AddSourceOffsetVisitor.visit] at h
      split at h
      · rename_i a' ha
        split at h
        · rename_i body' hb
          cases h
          simp only [Node.allNodes, List.map_cons, span_visitList_ids source_id body body' hb]
          simp [Node.attrs, spanAttrs_node_id source_id a a' ha]
        · exact absurd h (by simp)
      · exact absurd h (by simp)
  | unaryop a op operand =>
      intro t' h
      rw [AddSourceOffsetVisitor.visit] at h
      split at h
      · rename_i a' ha
        split at h
        · rename_i op' hop
          split at h
          · rename_i operand' hoperand
            cases h
            simp only [Node.allNodes, List.map_cons, List.map_append,
              span_visit_ids source_id op op' hop,
              span_visit_ids source_id operand operand' hoperand]
            simp [Node.attrs, spanAttrs_node_id source_id a a' ha]
          · exact absurd h (by simp)
        · exact absurd h (by simp)
      · exact absurd h (by simp)
  | uop a k =>
      intro t' h
      rw [AddSourceOffsetVisitor.visit] at h
      split at h
      · rename_i a' ha
        cases h
        simp [Node.allNodes, Node.attrs, spanAttrs_node_id source_id a a' ha]
      · exact absurd h (by simp)
  | constant a v =>
      intro t' h
      rw [AddSourceOffsetVisitor.visit] at h
      split at h
      · rename_i a' ha
        cases h
        simp [Node.allNodes, Node.attrs, spanAttrs_node_id source_id a a' ha]
      · exact absurd h (by simp)
  | other a kind children =>
      intro t' h
      rw [AddSourceOffsetVisitor.visit] at h
      split at h
      · rename_i a' ha
        split at h
        · rename_i children' hb
          cases h
          simp only [Node.allNodes, List.map_cons,
            span_visitList_ids source_id children children' hb]
          simp [Node.attrs, spanAttrs_node_id source_id a a' ha]
        · exact absurd h (by simp)
      · exact absurd h (by simp)

theorem span_visitList_ids (source_id : Int) (l : List Node) :
    ∀ l', AddSourceOffsetVisitor.visitList source_id l = .ok l' →
      ((Node.allNodesList l').map fun n => n.attrs.node_id) =
        ((Node.allNodesList l).map fun n => n.attrs.node_id) := by
  cases l with
  | nil =>
      intro l' h
      rw [AddSourceOffsetVisitor.visitList] at h
      cases h
      rfl
  | cons n rest =>
      intro l' h
      rw [AddSourceOffsetVisitor.visitList] at h
      split at h
      · rename_i n' hn
        split at h
        · rename_i rest' hrest
          cases h
          simp only [Node.allNodesList, List.map_append,
            span_visit_ids source_id n n' hn, span_visitList_ids source_id rest rest' hrest]
        · exact absurd h (by simp)
      · exact absurd h (by simp)

end

mutual

theorem span_visit_total (source_id : Int) (t : Node) :
    tokensOk t = true → ∃ t', AddSourceOffsetVisitor.visit source_id t = .ok t' := by
  cases t with
  | module a body =>
      intro h
      rw [tokensOk] at h
      simp only [Bool.and_eq_true] at h
      obtain ⟨a', ha⟩ := spanAttrs_total source_id a h.1
      obtain ⟨body', hb⟩ := span_visitList_total source_id body h.2
      exact ⟨_, by rw [AddSourceOffsetVisitor.visit, ha, hb]⟩
  | classdef a name body =>
      intro h
      rw [tokensOk] at h
      simp only [Bool.and_eq_true] at h
      obtain ⟨a', ha⟩ := spanAttrs_total source_id a h.1
      obtain ⟨body', hb⟩ := span_visitList_total source_id body h.2
      exact ⟨_, by rw [AddSourceOffsetVisitor.visit, ha, hb]⟩
  | unaryop a op operand =>
      intro h
      rw [tokensOk] at h
      simp only [Bool.and_eq_true] at h
      obtain ⟨a', ha⟩ := spanAttrs_total source_id a h.1.1
      obtain ⟨op', hop⟩ := span_visit_total source_id op h.1.2
      obtain ⟨operand', hoperand⟩ := span_visit_total source_id operand h.2
      exact ⟨_, by rw [AddSourceOffsetVisitor.visit, ha, hop, hoperand]⟩
  | uop a k =>
      intro h
      rw [tokensOk] at h
      obtain ⟨a', ha⟩ := spanAttrs_total source_id a h
      exact ⟨_, by rw [AddSourceOffsetVisitor.visit, ha]⟩
  | constant a v =>
      intro h
      rw [tokensOk] at h
      obtain ⟨a', ha⟩ := spanAttrs_total source_id a h
      exact ⟨_, by rw [AddSourceOffsetVisitor.visit, ha]⟩
  | other a kind children =>
      intro h
      rw [tokensOk] at h
      simp only [Bool.and_eq_true] at h
      obtain ⟨a', ha⟩ := spanAttrs_total source_id a h.1
      obtain ⟨children', hb⟩ := span_visitList_total source_id children h.2
      exact ⟨_, by rw [AddSourceOffsetVisitor.visit, ha, hb]⟩

theorem span_visitList_total (source_id : Int) (l : List Node) :
    tokensOkList l = true → ∃ l', AddSourceOffsetVisitor.visitList source_id l = .ok l' := by
  cases l with
  | nil => intro h; exact ⟨[], rfl⟩
  | cons n rest =>
      intro h
      rw [tokensOkList] at h
      simp only [Bool.and_eq_true] at h
      obtain ⟨n', hn⟩ := span_visit_total source_id n h.1
      obtain ⟨rest', hrest⟩ := span_visitList_total source_id rest h.2
      exact ⟨_, by rw [AddSourceOffsetVisitor.visitList, hn, hrest]⟩

end

end VyperAst

namespace VyperAst

mutual

theorem visit_err_total (source_code : String) (class_types : List (String × String))
    (t : Node) :
    ∀ c, (hasUnsupportedConst t = false →
        ∃ r, AnnotatingVisitor.visit source_code class_types t c = .ok r) ∧
      (hasUnsupportedConst t = true →
        ∃ a v, AnnotatingVisitor.visit source_code class_types t c =
            .error (.syntaxException (.constant a v)) ∧ constAstType v = none) := by
  cases t with
  | module a body =>
      intro c
      rw [hasUnsupportedConst]
      constructor
      · intro hcl
        obtain ⟨⟨body', c2⟩, hb⟩ := (visitList_err_total source_code class_types body (c + 1)).1 hcl
        exact ⟨_, by rw [AnnotatingVisitor.visit, hb]⟩
      · intro hcl
        obtain ⟨a', v, hb, hv⟩ := (visitList_err_total source_code class_types body (c + 1)).2 hcl
        exact ⟨a', v, by rw [AnnotatingVisitor.visit, hb], hv⟩
  | classdef a name body =>
      intro c
      rw [hasUnsupportedConst]
      constructor
      · intro hcl
        obtain ⟨⟨body', c2⟩, hb⟩ := (visitList_err_total source_code class_types body (c + 1)).1 hcl
        exact ⟨_, by rw [AnnotatingVisitor.visit, hb]⟩
      · intro hcl
        obtain ⟨a', v, hb, hv⟩ := (visitList_err_total source_code class_types body (c + 1)).2 hcl
        exact ⟨a', v, by rw [AnnotatingVisitor.visit, hb], hv⟩
  | unaryop a op operand =>
      intro c
      rw [hasUnsupportedConst]
      constructor
      · intro hcl
        simp only [Bool.or_eq_false_iff] at hcl
        obtain ⟨⟨op', c1⟩, h1⟩ := (visit_err_total source_code class_types op (c + 1)).1 hcl.1
        obtain ⟨⟨operand', c2⟩, h2⟩ := (visit_err_total source_code class_types operand c1).1 hcl.2
        refine ⟨(.unaryop (annotateAttrs source_code "UnaryOp" c a) op' operand', c2), ?_⟩
        simp only [AnnotatingVisitor.visit, h1, h2]
      · intro hcl
        cases hop : hasUnsupportedConst op with
        | true =>
            obtain ⟨a', v, h1, hv⟩ := (visit_err_total source_code class_types op (c + 1)).2 hop
            exact ⟨a', v, by rw [AnnotatingVisitor.visit, h1], hv⟩
        | false =>
            rw [hop, Bool.false_or] at hcl
            obtain ⟨⟨op', c1⟩, h1⟩ := (visit_err_total source_code class_types op (c + 1)).1 hop
            obtain ⟨a', v, h2, hv⟩ := (visit_err_total source_code class_types operand c1).2 hcl
            refine ⟨a', v, ?_, hv⟩
            simp only [AnnotatingVisitor.visit, h1, h2]
  | uop a k =>
      intro c
      rw [hasUnsupportedConst]
      exact ⟨fun _ => ⟨_, by rw [AnnotatingVisitor.visit]⟩, fun hcl => by simp at hcl⟩
  | constant a v =>
      intro c
      rw [hasUnsupportedConst]
      constructor
      · intro hcl
        cases hv : constAstType v with
        | some tag => exact ⟨_, by rw [AnnotatingVisitor.visit, hv]⟩
        | none => rw [hv] at hcl; simp at hcl
      · intro hcl
        cases hv : constAstType v with
        | some tag => rw [hv] at hcl; simp at hcl
        | none =>
            refine ⟨annotateAttrs source_code "Constant" c a, v, ?_, hv⟩
            rw [AnnotatingVisitor.visit, hv]
  | other a kind children =>
      intro c
      rw [hasUnsupportedConst]
      constructor
      · intro hcl
        obtain ⟨⟨children', c2⟩, hb⟩ :=
          (visitList_err_total source_code class_types children (c + 1)).1 hcl
        exact ⟨_, by rw [AnnotatingVisitor.visit, hb]⟩
      · intro hcl
        obtain ⟨a', v, hb, hv⟩ :=
          (visitList_err_total source_code class_types children (c + 1)).2 hcl
        exact ⟨a', v, by rw [AnnotatingVisitor.visit, hb], hv⟩

theorem visitList_err_total (source_code : String) (class_types : List (String × String))
    (l : List Node) :
    ∀ c, (hasUnsupportedConstList l = false →
        ∃ r, AnnotatingVisitor.visitList source_code class_types l c = .ok r) ∧
      (hasUnsupportedConstList l = true →
        ∃ a v, AnnotatingVisitor.visitList source_code class_types l c =
            .error (.syntaxException (.constant a v)) ∧ constAstType v = none) := by
  cases l with
  | nil =>
      intro c
      rw [hasUnsupportedConstList]
      exact ⟨fun _ => ⟨_, rfl⟩, fun hcl => by simp at hcl⟩
  | cons n rest =>
      intro c
      rw [hasUnsupportedConstList]
      constructor
      · intro hcl
        simp only [Bool.or_eq_false_iff] at hcl
        obtain ⟨⟨n', c1⟩, h1⟩ := (visit_err_total source_code class_types n c).1 hcl.1
        obtain ⟨⟨rest', c2⟩, h2⟩ := (visitList_err_total source_code class_types rest c1).1 hcl.2
        refine ⟨(n' :: rest', c2), ?_⟩
        simp only [AnnotatingVisitor.visitList, h1, h2]
      · intro hcl
        cases hn : hasUnsupportedConst n with
        | true =>
            obtain ⟨a', v, h1, hv⟩ := (visit_err_total source_code class_types n c).2 hn
            exact ⟨a', v, by rw [AnnotatingVisitor.visitList, h1], hv⟩
        | false =>
            rw [hn, Bool.false_or] at hcl
            obtain ⟨⟨n', c1⟩, h1⟩ := (visit_err_total source_code class_types n c).1 hn
            obtain ⟨a', v, h2, hv⟩ := (visitList_err_total source_code class_types rest c1).2 hcl
            refine ⟨a', v, ?_, hv⟩
            simp only [AnnotatingVisitor.visitList, h1, h2]

end

end VyperAst

namespace VyperAst

/-- Claim C1: the identity-and-classification pass assigns every constant
node's sub-kind tag by the first-match-wins chain of `visit_Constant`
(`constAstType`): boolean/null before numeric, then string, then bytes;
in particular `True`, `False` and `None` — although booleans are `int`
instances in the host data model — classify as `NameConstant`, never as
`Num`. -/
theorem c1_constant_classification (source_code : String)
    (class_types : List (String × String)) (t : Node) (c : Nat) (t' : Node) (c' : Nat)
    (h : AnnotatingVisitor.visit source_code class_types t c = .ok (t', c')) :
    (∀ n ∈ t'.allNodes, ∀ a v, n = Node.constant a v → a.ast_type = constAstType v) ∧
    constAstType .vnone = some "NameConstant" ∧
    (∀ b, constAstType (.vbool b) = some "NameConstant") ∧
    (∀ b, constAstType (.vbool b) ≠ some "Num") ∧
    (∀ b, Value.isinstInt (.vbool b) = true) ∧
    (∀ n : Int, constAstType (.vint n) = some "Num") ∧
    (∀ q : Rat, constAstType (.vfloat q) = some "Num") ∧
    (∀ s : String, constAstType (.vstr s) = some "Str") ∧
    (∀ bs : List Nat, constAstType (.vbytes bs) = some "Bytes") := by
  refine ⟨visit_constTypes source_code class_types t c t' c' h, rfl, fun b => rfl, ?_,
    fun b => rfl, fun n => rfl, fun q => rfl, fun s => rfl, fun bs => rfl⟩
  intro b
  simp [constAstType, Value.isNone', Value.isBool]

/-- Witness for C1 at a concrete tree. -/
theorem c1_constant_classification_witness :
    (∀ n ∈ ((AnnotatingVisitor.visit "" [] exM 0).toOption.getD (exM, 0)).1.allNodes,
       ∀ a v, n = Node.constant a v → a.ast_type = constAstType v) ∧
    constAstType (.vbool true) = some "NameConstant" :=
  ⟨(c1_constant_classification "" [] exM 0
      ((AnnotatingVisitor.visit "" [] exM 0).toOption.getD (exM, 0)).1
      ((AnnotatingVisitor.visit "" [] exM 0).toOption.getD (exM, 0)).2 rfl).1,
   ((c1_constant_classification "" [] exM 0
      ((AnnotatingVisitor.visit "" [] exM 0).toOption.getD (exM, 0)).1
      ((AnnotatingVisitor.visit "" [] exM 0).toOption.getD (exM, 0)).2 rfl).2.2.1 true)⟩

/-- Claim C2: the fold pass, on a unary-negation node whose operand is
exactly a numeric literal node, returns the operand node with its value
arithmetically negated and its starting column overwritten by the
negation node's; the operand's `node_id` and constant sub-kind tag
(`ast_type`) survive unchanged. -/
theorem c2_unary_fold_replaces_literal (a oa ca : Attrs) (v : Value)
    (h : v.isinstNum = true) :
    RewriteUnarySubVisitor.visit (.unaryop a (.uop oa .usub) (.constant ca v)) =
      .constant {ca with col_offset := a.col_offset} v.negNum ∧
    ({ca with col_offset := a.col_offset} : Attrs).node_id = ca.node_id ∧
    ({ca with col_offset := a.col_offset} : Attrs).ast_type = ca.ast_type := by
  refine ⟨?_, rfl, rfl⟩
  simp only [RewriteUnarySubVisitor.visit]
  simp [Node.isUSubNode, Node.isNumConst, h, foldNegate]

/-- Witness for C2: folding `-5` with the negation at column 7. -/
theorem c2_unary_fold_replaces_literal_witness :
    Value.isinstNum (.vint 5) = true ∧
    RewriteUnarySubVisitor.visit
        (.unaryop {col_offset := some 7} (.uop {} .usub)
          (.constant {node_id := some 3, ast_type := some "Num"} (.vint 5))) =
      .constant {({node_id := some 3, ast_type := some "Num"} : Attrs) with
                   col_offset := ({col_offset := some 7} : Attrs).col_offset}
        (Value.negNum (.vint 5)) :=
  ⟨rfl,
   (c2_unary_fold_replaces_literal {col_offset := some 7} {}
     {node_id := some 3, ast_type := some "Num"} (.vint 5) rfl).1⟩

/-- Claim C3: after the identity-and-classification pass alone (counter
started at 0), every node of its output carries a `node_id`, and the
ids listed in pre-order are exactly `some 0, ..., some (N-1)` where `N`
is the number of nodes of the input tree: each id used once, contiguous,
and assigned pre-order (a node before its children, children in source
order). -/
theorem c3_preorder_numbering (source_code : String)
    (class_types : List (String × String)) (t t' : Node) (c' : Nat)
    (h : AnnotatingVisitor.visit source_code class_types t 0 = .ok (t', c')) :
    t'.allNodes.map (fun n => n.attrs.node_id) = (List.range' 0 t.size).map some ∧
    t'.allNodes.length = t.size ∧ c' = t.size := by
  obtain ⟨hsz, hids⟩ := visit_ids source_code class_types t 0 t' c' h
  refine ⟨hids, ?_, by omega⟩
  have := congrArg List.length hids
  simpa using this

/-- Witness for C3 at a concrete tree with three nodes. -/
theorem c3_preorder_numbering_witness :
    ((AnnotatingVisitor.visit "" [] exM 0).toOption.getD (exM, 0)).1.allNodes.map
        (fun n => n.attrs.node_id) =
      (List.range' 0 exM.size).map some ∧
    ((AnnotatingVisitor.visit "" [] exM 0).toOption.getD (exM, 0)).2 = exM.size :=
  ⟨(c3_preorder_numbering "" [] exM
      ((AnnotatingVisitor.visit "" [] exM 0).toOption.getD (exM, 0)).1
      ((AnnotatingVisitor.visit "" [] exM 0).toOption.getD (exM, 0)).2 rfl).1,
   (c3_preorder_numbering "" [] exM
      ((AnnotatingVisitor.visit "" [] exM 0).toOption.getD (exM, 0)).1
      ((AnnotatingVisitor.visit "" [] exM 0).toOption.getD (exM, 0)).2 rfl).2.2⟩

/-- Claim C4: the per-node operation of the source-span pass.  When both
a first and a last covering token exist, the start position comes from
the first token's start, the end position from the last token's end, and
the stored span identifier embeds the start byte offset, the byte length
(end byte minus start byte) and the caller-supplied source id.  When no
token association exists, all four position fields are set to the null
sentinel. -/
theorem c4_span_pass_fields (source_id : Int) (a : Attrs) :
    (∀ ft lt, a.first_token = some ft → a.last_token = some lt →
      AddSourceOffsetVisitor.spanAttrs source_id a =
        .ok {a with lineno := some ft.startLine, col_offset := some ft.startCol,
                    end_lineno := some lt.endLine, end_col_offset := some lt.endCol,
                    src := some (toString ft.startpos ++ ":" ++
                      toString ((lt.endpos : Int) - (ft.startpos : Int)) ++ ":" ++
                      toString source_id)}) ∧
    (a.first_token = none → a.last_token = none →
      AddSourceOffsetVisitor.spanAttrs source_id a =
        .ok {a with lineno := none, col_offset := none,
                    end_lineno := none, end_col_offset := none}) := by
  constructor
  · intro ft lt hf hl
    simp [AddSourceOffsetVisitor.spanAttrs, hf, hl]
  · intro hf hl
    simp [AddSourceOffsetVisitor.spanAttrs, hf, hl]

/-- Witness for C4: covering tokens spanning bytes 10 to 15 give
byte_start 10 and byte_len 5, i.e. the span string "10:5:0"; a token-free
node gets null position fields. -/
theorem c4_span_pass_fields_witness :
    AddSourceOffsetVisitor.spanAttrs 0
        {first_token := some tk1015, last_token := some tk1015} =
      .ok {first_token := some tk1015, last_token := some tk1015,
           lineno := some 1, col_offset := some 0,
           end_lineno := some 1, end_col_offset := some 5,
           src := some "10:5:0"} ∧
    AddSourceOffsetVisitor.spanAttrs 0 ({} : Attrs) = .ok ({} : Attrs) := by
  constructor
  · rw [(c4_span_pass_fields 0
      {first_token := some tk1015, last_token := some tk1015}).1 tk1015 tk1015 rfl rfl]
    rfl
  · rw [(c4_span_pass_fields 0 ({} : Attrs)).2 rfl rfl]

/-- Claim C5: when the tree holds a constant whose value matches none of
the four recognized literal kinds, the entry point returns the
`SyntaxException` carrying the offending constant node, whatever the
token-association service would have said — the fold and span passes
never run. -/
theorem c5_unsupported_literal_aborts (tok : Node → Option Token × Option Token)
    (source_code : String) (class_types : List (String × String)) (source_id : Int)
    (t : Node) (h : hasUnsupportedConst t = true) :
    ∃ a v, annotate_python_ast tok t source_code class_types source_id =
        .error (.syntaxException (.constant a v)) ∧ constAstType v = none := by
  obtain ⟨a, v, herr, hv⟩ := (visit_err_total source_code class_types t 0).2 h
  refine ⟨a, v, ?_, hv⟩
  simp only [annotate_python_ast, herr]

/-- Witness for C5: a complex-valued constant aborts the whole run. -/
theorem c5_unsupported_literal_aborts_witness :
    hasUnsupportedConst exBad = true ∧
    (annotate_python_ast tokNone exBad "" [] 0).toOption = none := by
  refine ⟨rfl, ?_⟩
  obtain ⟨a, v, he, hv⟩ := c5_unsupported_literal_aborts tokNone "" [] 0 exBad rfl
  rw [he]
  rfl

/-- Counterexample to claim C6 as stated: the fold pass visits children
first, so a unary negation whose received operand is a nested unary
negation of a literal (not itself a literal) is not left unchanged — the
result is not even a unary-operation node: `-(-5)` folds to the literal
`5`. -/
theorem c6_nofold_counterexample :
    RewriteUnarySubVisitor.visit exDblNeg =
      .constant {col_offset := some 0, node_id := some 9} (.vint 5) ∧
    (RewriteUnarySubVisitor.visit exDblNeg).isUnaryOp = false := ⟨rfl, rfl⟩

/-- Claim C6 amended: a unary node whose operator is not a negation, or a
negation whose operand — after the pass has processed it — is not exactly
a numeric literal node, is returned as a unary-operation node with the
same operator wrapping the processed operand. -/
theorem c6_nofold_amended (a oa : Attrs) (k : UOpKind) (operand : Node)
    (h : k = UOpKind.usub → (RewriteUnarySubVisitor.visit operand).isNumConst = false) :
    RewriteUnarySubVisitor.visit (.unaryop a (.uop oa k) operand) =
      .unaryop a (.uop oa k) (RewriteUnarySubVisitor.visit operand) := by
  have hop : RewriteUnarySubVisitor.visit (.uop oa k) = .uop oa k := by
    rw [RewriteUnarySubVisitor.visit]
  rw [RewriteUnarySubVisitor.visit, hop]
  cases k with
  | usub => rw [h rfl]; simp [Node.isUSubNode]
  | uadd => simp [Node.isUSubNode]
  | unot => simp [Node.isUSubNode]
  | uinvert => simp [Node.isUSubNode]

/-- Witness for the amended C6: negating a bare operator node (not a
numeric literal) leaves the unary node in place. -/
theorem c6_nofold_amended_witness :
    (RewriteUnarySubVisitor.visit (.uop {} .uadd)).isNumConst = false ∧
    RewriteUnarySubVisitor.visit (.unaryop {} (.uop {} .usub) (.uop {} .uadd)) =
      .unaryop {} (.uop {} .usub) (RewriteUnarySubVisitor.visit (.uop {} .uadd)) :=
  ⟨rfl, c6_nofold_amended {} {} .usub (.uop {} .uadd) (fun _ => rfl)⟩

/-- Counterexample to claim C7 as stated: on a tree containing one fold,
the final tree's ids are `[0, 3]` — unique and increasing, but not the
contiguous range `[0, final node count)`: the folded-away unary node's id
(and its operator child's id) are gaps. -/
theorem c7_final_ids_counterexample :
    annotate_python_ast tokNone exNeg "" [] 0 = .ok exNegOut ∧
    exNegOut.allNodes.map (fun n => n.attrs.node_id) = [some 0, some 3] ∧
    ¬ (exNegOut.allNodes.map (fun n => n.attrs.node_id) =
        (List.range exNegOut.allNodes.length).map some) := by
  refine ⟨rfl, rfl, by decide⟩

/-- Claim C7 amended: after the full annotate run, the `node_id` values
of the final tree, read in pre-order, form a sublist of
`some 0, ..., some (N-1)` where `N` is the pre-fold node count — hence
unique and strictly increasing; they are the full contiguous range
exactly when no fold discarded a node. -/
theorem c7_final_ids_amended (tok : Node → Option Token × Option Token)
    (source_code : String) (class_types : List (String × String)) (source_id : Int)
    (t u : Node)
    (h : annotate_python_ast tok t source_code class_types source_id = .ok u) :
    List.Sublist (u.allNodes.map fun n => n.attrs.node_id)
      ((List.range' 0 t.size).map some) := by
  rw [annotate_python_ast] at h
  split at h
  · exact absurd h (by simp)
  · rename_i t1 c1 heq
    have h1 := span_visit_ids source_id _ u h
    rw [tokenAssoc_ids] at h1
    obtain ⟨hsz, hids⟩ := visit_ids source_code class_types t 0 t1 c1 heq
    rw [h1, ← hids]
    exact rw_visitTree_sublist t1

/-- Witness for the amended C7 on the folding example. -/
theorem c7_final_ids_amended_witness :
    List.Sublist (exNegOut.allNodes.map fun n => n.attrs.node_id)
      ((List.range' 0 exNeg.size).map some) :=
  c7_final_ids_amended tokNone "" [] 0 exNeg exNegOut rfl

/-- Counterexample to claim C8 as stated: the source-span pass raises an
AttributeError on a node carrying a last-token association but no
first-token association (it reads `node.first_token.startpos` under a
`hasattr(node, 'last_token')` guard only). -/
theorem c8_totality_counterexample :
    AddSourceOffsetVisitor.visit 0 (.constant {last_token := some tk1015} (.vint 1)) =
      .error .attributeError := rfl

/-- Claim C8 amended: the fold pass is total by construction, and the
source-span pass runs to completion on every tree in which each node
carrying a last-token association also carries a first-token association
(which is what the external service produces). -/
theorem c8_totality_amended (source_id : Int) (t : Node) (h : tokensOk t = true) :
    (AddSourceOffsetVisitor.visit source_id t).toOption.isSome = true := by
  obtain ⟨t', ht⟩ := span_visit_total source_id t h
  rw [ht]
  rfl

/-- Witness for the amended C8: a node with both tokens present. -/
theorem c8_totality_amended_witness :
    tokensOk (.constant {first_token := some tk1015, last_token := some tk1015} (.vint 1)) = true ∧
    (AddSourceOffsetVisitor.visit 0
        (.constant {first_token := some tk1015, last_token := some tk1015} (.vint 1))).toOption.isSome = true :=
  ⟨rfl, c8_totality_amended 0
    (.constant {first_token := some tk1015, last_token := some tk1015} (.vint 1)) rfl⟩

/-- Claim C9: the node-id counter is owned by the pass invocation.  The
second of two successive annotate calls returns a result independent of
what (if anything) the first call ran on, and its identity pass assigns
ids starting again from 0: exactly `some 0, ..., some (N-1)` for its own
tree's node count `N`. -/
theorem c9_counter_freshness (tok : Node → Option Token × Option Token)
    (source_code : String) (class_types : List (String × String)) (source_id : Int)
    (t₁ t₁' t₂ : Node) :
    (annotateTwice tok t₁ t₂ source_code class_types source_id).2 =
      (annotateTwice tok t₁' t₂ source_code class_types source_id).2 ∧
    (∀ t₂' c', AnnotatingVisitor.visit source_code class_types t₂ 0 = .ok (t₂', c') →
      t₂'.allNodes.map (fun n => n.attrs.node_id) = (List.range' 0 t₂.size).map some) :=
  ⟨rfl, fun t₂' c' h => (visit_ids source_code class_types t₂ 0 t₂' c' h).2⟩

/-- Witness for C9 on concrete trees. -/
theorem c9_counter_freshness_witness :
    (annotateTwice tokNone exNeg exM "" [] 0).2 =
      (annotateTwice tokNone exBad exM "" [] 0).2 ∧
    ((AnnotatingVisitor.visit "" [] exM 0).toOption.getD (exM, 0)).1.allNodes.map
        (fun n => n.attrs.node_id) = (List.range' 0 exM.size).map some :=
  ⟨(c9_counter_freshness tokNone "" [] 0 exNeg exBad exM).1,
   (c9_counter_freshness tokNone "" [] 0 exNeg exBad exM).2
     ((AnnotatingVisitor.visit "" [] exM 0).toOption.getD (exM, 0)).1
     ((AnnotatingVisitor.visit "" [] exM 0).toOption.getD (exM, 0)).2 rfl⟩

/-- Claim C10: a unary negation whose operand is a boolean constant is
left unchanged by the fold pass — the `Num` instance test excludes
booleans (CPython's `_const_types_not`), even though `bool` is an `int`
subtype — and more generally no value classified `NameConstant` by pass
1 passes the fold's numeric-literal test. -/
theorem c10_bool_operand_not_folded (a oa ca : Attrs) (b : Bool) :
    RewriteUnarySubVisitor.visit (.unaryop a (.uop oa .usub) (.constant ca (.vbool b))) =
      .unaryop a (.uop oa .usub) (.constant ca (.vbool b)) ∧
    (∀ v, constAstType v = some "NameConstant" → v.isinstNum = false) := by
  constructor
  · rfl
  · intro v hv
    cases v <;>
      simp_all [constAstType, Value.isNone', Value.isBool, Value.isinstInt,
        Value.isinstFloat, Value.isinstStr, Value.isinstBytes, Value.isinstComplex,
        Value.isinstNum]

/-- Witness for C10: `-True` is untouched and `True` is not a numeric
literal for the fold. -/
theorem c10_bool_operand_not_folded_witness :
    RewriteUnarySubVisitor.visit
        (.unaryop {} (.uop {} .usub) (.constant {} (.vbool true))) =
      .unaryop {} (.uop {} .usub) (.constant {} (.vbool true)) ∧
    Value.isinstNum (.vbool true) = false :=
  ⟨(c10_bool_operand_not_folded {} {} {} true).1,
   (c10_bool_operand_not_folded {} {} {} true).2 (.vbool true) rfl⟩

end VyperAst
